import Mathlib

/-!
Shallow embedding of `backend/app/login.py` (registration and login flows of the
account-credential core), together with spec-modelled interfaces for the external
collaborators it calls: the credential hasher (`passlib.hash.bcrypt`), the identity
store (`routes/database.py`: `get_db`, `User`) and the token issuer
(`authorize.create_access_token`).  The two flows themselves are translated
directly from the source.
-/

/-- ASCII model of the default whitespace class stripped by Python's `str.strip()`:
space, tab, newline, carriage return, vertical tab, form feed. -/
def isPySpace (c : Char) : Bool :=
  c.toNat = 32 || c.toNat = 9 || c.toNat = 10 || c.toNat = 13 || c.toNat = 11 || c.toNat = 12

/-- ASCII model of Python's `str.lower()` applied to one character:
uppercase letters A-Z map to a-z, everything else is unchanged. -/
def pyLowerChar (c : Char) : Char :=
  if 65 ≤ c.toNat ∧ c.toNat ≤ 90 then Char.ofNat (c.toNat + 32) else c

/-- Python's `str.strip()` on a character list: drop the whitespace run at both ends. -/
def pyStrip (l : List Char) : List Char :=
  ((l.dropWhile isPySpace).reverse.dropWhile isPySpace).reverse

/-- Source `normalize_email` (login.py, lines 52-57):
`return email.strip().lower()` — strip surrounding whitespace, then lower-case. -/
def normalize_email (email : String) : String :=
  ⟨(pyStrip email.data).map pyLowerChar⟩

/-- Opaque stored password hash.  A well-formed bcrypt hash embeds its salt;
any other stored value is malformed. -/
inductive StoredHash where
  | bcryptHashed (salt : Nat) (payload : String)
  | malformed (raw : String)
deriving DecidableEq, Repr

namespace bcrypt

/-- Modelled from the spec (§4.2): `passlib`'s `bcrypt.hash` is not repository code.
`hash(plaintext)` produces a salted one-way hash; the salt chosen for the call is an
explicit parameter here, making the per-call nondeterminism visible. -/
def hash (salt : Nat) (plaintext : String) : StoredHash :=
  .bcryptHashed salt plaintext

/-- Modelled from the spec (§4.2): `bcrypt.verify(plaintext, stored_hash)` recomputes
with the salt embedded in `stored_hash` and compares; it returns `false` on any
malformed `stored_hash` rather than raising. -/
def verify (plaintext : String) (stored_hash : StoredHash) : Bool :=
  match stored_hash with
  | .bcryptHashed _ payload => payload == plaintext
  | .malformed _ => false

end bcrypt

/-- Persisted account row (the `User` model of `routes/database.py`, spec §3):
store-assigned id, normalized email (unique key), opaque password hash. -/
structure Account where
  id : Nat
  email : String
  password_hash : StoredHash
deriving DecidableEq, Repr

/-- Modelled from the spec: the identity store (`routes/database.py` is not under
`src/`).  Rows in insertion order plus the next store-assigned id. -/
structure Store where
  accounts : List Account
  nextId : Nat
deriving DecidableEq, Repr

/-- The lookup `db.query(User).filter(User.email == email).first()`:
first row whose email column equals `email`, if any. -/
def Store.findByEmail (db : Store) (email : String) : Option Account :=
  db.accounts.find? (fun a => a.email == email)

/-- Modelled from the spec (§6): the store's atomic create with a uniqueness
constraint on the email column — `create(normalizedEmail, passwordHash) ->
Account | UniquenessViolation`.  This is what `db.add` + `db.commit` amount to:
the commit fails with an integrity error iff the email is already present. -/
def Store.create (db : Store) (email : String) (h : StoredHash) :
    Except Unit (Account × Store) :=
  if (db.findByEmail email).isSome then
    .error ()
  else
    let a : Account := ⟨db.nextId, email, h⟩
    .ok (a, ⟨db.accounts ++ [a], db.nextId + 1⟩)

/-- Modelled from the spec: `authorize.create_access_token` is not under `src/`.
The issuer mints an opaque token whose subject is the given account id. -/
structure AccessToken where
  sub : String
deriving DecidableEq, Repr

/-- Token minting: `create_access_token(sub=str(user.id))` binds the subject. -/
def create_access_token (sub : String) : AccessToken :=
  ⟨sub⟩

/-- Response payload of both endpoints: token plus the constant kind label. -/
structure TokenOut where
  access_token : AccessToken
  token_type : String
deriving DecidableEq, Repr

/-- An `HTTPException(status_code=..., detail=...)` raised by a flow. -/
structure HTTPError where
  status_code : Nat
  detail : String
deriving DecidableEq, Repr

/-- Request payload `UserCreate` (login.py): raw email and plaintext password. -/
structure UserCreate where
  email : String
  password : String
deriving DecidableEq, Repr

/-- Decidable equality of flow results, so concrete runs can be checked by
evaluation. -/
instance {ε α : Type} [DecidableEq ε] [DecidableEq α] : DecidableEq (Except ε α) := fun a b =>
  match a, b with
  | .error x, .error y =>
    if h : x = y then .isTrue (congrArg Except.error h)
    else .isFalse (fun hh => h (Except.error.inj hh))
  | .ok x, .ok y =>
    if h : x = y then .isTrue (congrArg Except.ok h)
    else .isFalse (fun hh => h (Except.ok.inj hh))
  | .error _, .ok _ => .isFalse (fun hh => Except.noConfusion hh)
  | .ok _, .error _ => .isFalse (fun hh => Except.noConfusion hh)

/-- Source `register` (login.py, lines 70-116).  `db` is the store state the
optimistic pre-check reads; `dbAtCommit` is the state the commit runs against,
which differs from `db` exactly when concurrent registrations committed between
the pre-check and the commit (the race of step 5).  A sequential run is
`register payload salt db db`.  `salt` is the salt bcrypt draws for this call. -/
def register (payload : UserCreate) (salt : Nat) (db dbAtCommit : Store) :
    Except HTTPError TokenOut × Store :=
  let email := normalize_email payload.email
  if (db.findByEmail email).isSome then
    (.error ⟨409, "Email already registered"⟩, db)
  else
    let hashed := bcrypt.hash salt payload.password
    match dbAtCommit.create email hashed with
    | .error _ => (.error ⟨409, "Email already registered"⟩, dbAtCommit)
    | .ok (user, db2) =>
      (.ok ⟨create_access_token (toString user.id), "bearer"⟩, db2)

/-- Source `login` (login.py, lines 128-161): normalize, look up, verify, mint.
The store is returned unchanged on every path — the flow never writes. -/
def login (payload : UserCreate) (db : Store) :
    Except HTTPError TokenOut × Store :=
  let email := normalize_email payload.email
  match db.findByEmail email with
  | none => (.error ⟨401, "Invalid credentials"⟩, db)
  | some user =>
    if !(bcrypt.verify payload.password user.password_hash) then
      (.error ⟨401, "Invalid credentials"⟩, db)
    else
      (.ok ⟨create_access_token (toString user.id), "bearer"⟩, db)

/-! ### Character-level facts about the Python string helpers -/

lemma char_toNat_ofNat_of_lt {n : Nat} (h : n < 0xd800) : (Char.ofNat n).toNat = n := by
  have hv : n.isValidChar := Or.inl h
  rw [Char.ofNat, dif_pos hv]
  simp [Char.ofNatAux, Char.toNat, UInt32.ofNat', BitVec.ofNatLt, UInt32.toNat]

lemma isPySpace_pyLowerChar (c : Char) : isPySpace (pyLowerChar c) = isPySpace c := by
  by_cases h : 65 ≤ c.toNat ∧ c.toNat ≤ 90
  · have h1 : (Char.ofNat (c.toNat + 32)).toNat = c.toNat + 32 :=
      char_toNat_ofNat_of_lt (by omega)
    simp only [pyLowerChar, if_pos h]
    apply Bool.eq_iff_iff.mpr
    simp only [isPySpace, h1, Bool.or_eq_true, decide_eq_true_eq]
    omega
  · simp only [pyLowerChar, if_neg h]

lemma pyLowerChar_idem (c : Char) : pyLowerChar (pyLowerChar c) = pyLowerChar c := by
  by_cases h : 65 ≤ c.toNat ∧ c.toNat ≤ 90
  · have h1 : (Char.ofNat (c.toNat + 32)).toNat = c.toNat + 32 :=
      char_toNat_ofNat_of_lt (by omega)
    simp only [pyLowerChar, if_pos h]
    rw [if_neg (by rw [h1]; omega)]
  · simp only [pyLowerChar, if_neg h]

lemma pyLowerChar_not_upper (c : Char) :
    ¬(65 ≤ (pyLowerChar c).toNat ∧ (pyLowerChar c).toNat ≤ 90) := by
  by_cases h : 65 ≤ c.toNat ∧ c.toNat ≤ 90
  · have h1 : (Char.ofNat (c.toNat + 32)).toNat = c.toNat + 32 :=
      char_toNat_ofNat_of_lt (by omega)
    simp only [pyLowerChar, if_pos h, h1]
    omega
  · simp only [pyLowerChar, if_neg h]
    omega

/-! ### List-level facts about stripping -/

lemma dropWhile_self (p : α → Bool) (l : List α) :
    (l.dropWhile p).dropWhile p = l.dropWhile p := by
  induction l with
  | nil => rfl
  | cons a t ih =>
    by_cases h : p a
    · simp [List.dropWhile_cons, h, ih]
    · simp [List.dropWhile_cons, h]

lemma dropWhile_exists_append (p : α → Bool) (l : List α) :
    ∃ t, t ++ l.dropWhile p = l := by
  induction l with
  | nil => exact ⟨[], rfl⟩
  | cons a t ih =>
    by_cases h : p a
    · obtain ⟨s, hs⟩ := ih
      exact ⟨a :: s, by simp [List.dropWhile_cons_of_pos h, hs]⟩
    · exact ⟨[], by simp [List.dropWhile_cons_of_neg h]⟩

lemma dropWhile_head_false (p : α → Bool) (l : List α) (a : α) (t : List α)
    (h : l.dropWhile p = a :: t) : p a = false := by
  have hh := List.head?_dropWhile_not p l
  rw [h] at hh
  simpa using hh

lemma dropWhile_pyStrip (l : List Char) :
    (pyStrip l).dropWhile isPySpace = pyStrip l := by
  obtain ⟨t, ht⟩ := dropWhile_exists_append isPySpace (l.dropWhile isPySpace).reverse
  have hBA : ((l.dropWhile isPySpace).reverse.dropWhile isPySpace).reverse ++ t.reverse
      = l.dropWhile isPySpace := by
    have h2 := congrArg List.reverse ht
    simpa [List.reverse_append] using h2
  unfold pyStrip
  cases hrev : ((l.dropWhile isPySpace).reverse.dropWhile isPySpace).reverse with
  | nil => rfl
  | cons c cs =>
    rw [hrev] at hBA
    have hc : isPySpace c = false :=
      dropWhile_head_false isPySpace l c (cs ++ t.reverse) (by rw [← hBA]; rfl)
    exact List.dropWhile_cons_of_neg (by simp [hc])

lemma pyStrip_idem (l : List Char) : pyStrip (pyStrip l) = pyStrip l := by
  have h1 : (pyStrip l).dropWhile isPySpace = pyStrip l := dropWhile_pyStrip l
  show ((((pyStrip l).dropWhile isPySpace).reverse.dropWhile isPySpace)).reverse = pyStrip l
  rw [h1]
  unfold pyStrip
  rw [List.reverse_reverse, dropWhile_self]

lemma pyStrip_map_lower (l : List Char) :
    pyStrip (l.map pyLowerChar) = (pyStrip l).map pyLowerChar := by
  have hp : (isPySpace ∘ pyLowerChar) = isPySpace := funext isPySpace_pyLowerChar
  unfold pyStrip
  rw [List.dropWhile_map, hp, ← List.map_reverse, List.dropWhile_map, hp, ← List.map_reverse]

lemma pyStrip_head_false (l : List Char) (c : Char) (t : List Char)
    (h : pyStrip l = c :: t) : isPySpace c = false :=
  dropWhile_head_false isPySpace (pyStrip l) c t ((dropWhile_pyStrip l).trans h)

lemma pyStrip_reverse (l : List Char) :
    (pyStrip l).reverse = (l.dropWhile isPySpace).reverse.dropWhile isPySpace := by
  unfold pyStrip
  rw [List.reverse_reverse]

/-! ### Claims C7 and C8: the normalizer contract -/

/-- C7.  `normalize_email` is total (it is a function), lower-cases and strips:
on the spec's example it returns exactly `"e@x.com"`, its output never starts or
ends with a whitespace character, and its output contains no uppercase A-Z. -/
theorem normalize_email_contract :
    normalize_email " E@X.com " = "e@x.com" ∧
    (∀ (s : String) (c : Char),
      (normalize_email s).data.head? = some c → isPySpace c = false) ∧
    (∀ (s : String) (c : Char),
      (normalize_email s).data.reverse.head? = some c → isPySpace c = false) ∧
    (∀ (s : String) (c : Char),
      c ∈ (normalize_email s).data → ¬(65 ≤ c.toNat ∧ c.toNat ≤ 90)) := by
  refine ⟨by decide, ?_, ?_, ?_⟩
  · intro s c hc
    have hmap : (pyStrip s.data).head?.map pyLowerChar = some c := by
      rw [← List.head?_map]
      exact hc
    rcases Option.map_eq_some'.mp hmap with ⟨c0, hc0, hfc⟩
    cases hstrip : pyStrip s.data with
    | nil => rw [hstrip] at hc0; cases hc0
    | cons a t =>
      rw [hstrip] at hc0
      have ha : a = c0 := by simpa using hc0
      have hs : isPySpace a = false := pyStrip_head_false s.data a t hstrip
      rw [← hfc, ← ha, isPySpace_pyLowerChar]
      exact hs
  · intro s c hc
    have hrev : (normalize_email s).data.reverse = ((pyStrip s.data).reverse).map pyLowerChar := by
      show ((pyStrip s.data).map pyLowerChar).reverse = _
      rw [List.map_reverse]
    rw [hrev, List.head?_map] at hc
    rcases Option.map_eq_some'.mp hc with ⟨c0, hc0, hfc⟩
    rw [pyStrip_reverse] at hc0
    cases hdrop : (s.data.dropWhile isPySpace).reverse.dropWhile isPySpace with
    | nil => rw [hdrop] at hc0; cases hc0
    | cons a t =>
      rw [hdrop] at hc0
      have ha : a = c0 := by simpa using hc0
      have hs : isPySpace a = false :=
        dropWhile_head_false isPySpace (s.data.dropWhile isPySpace).reverse a t hdrop
      rw [← hfc, ← ha, isPySpace_pyLowerChar]
      exact hs
  · intro s c hc
    have hc' : c ∈ (pyStrip s.data).map pyLowerChar := hc
    rcases List.mem_map.mp hc' with ⟨c0, _, hfc⟩
    rw [← hfc]
    exact pyLowerChar_not_upper c0

/-- C8.  `normalize_email` is idempotent: normalizing an already-normalized
email is the identity. -/
theorem normalize_email_idempotent (e : String) :
    normalize_email (normalize_email e) = normalize_email e := by
  unfold normalize_email
  apply congrArg String.mk
  show (pyStrip ((pyStrip e.data).map pyLowerChar)).map pyLowerChar
      = (pyStrip e.data).map pyLowerChar
  rw [pyStrip_map_lower, pyStrip_idem, List.map_map]
  congr 1
  funext c
  exact pyLowerChar_idem c

/-! ### Helper lemmas about the store and the flows -/

lemma find?_append_of_none {α : Type} (f : α → Bool) {l1 : List α} (l2 : List α)
    (h : l1.find? f = none) : (l1 ++ l2).find? f = l2.find? f := by
  rw [List.find?_append, h, Option.none_or]

lemma register_ok_eq (e p : String) (salt : Nat) (db : Store)
    (h : db.findByEmail (normalize_email e) = none) :
    register ⟨e, p⟩ salt db db =
      (.ok ⟨create_access_token (toString db.nextId), "bearer"⟩,
       ⟨db.accounts ++ [⟨db.nextId, normalize_email e, bcrypt.hash salt p⟩],
        db.nextId + 1⟩) := by
  simp only [register, Store.create, h, Option.isSome_none, Bool.false_eq_true, if_false]

lemma findByEmail_append_new (db : Store) (email : String) (n : Nat) (a : Account)
    (h : db.findByEmail email = none) (ha : a.email = email) :
    Store.findByEmail ⟨db.accounts ++ [a], n⟩ email = some a := by
  unfold Store.findByEmail at h ⊢
  rw [find?_append_of_none _ _ h]
  simp [List.find?, ha]

/-! ### Claim C1: register then login round-trip -/

/-- C1.  If no account with the normalized email exists, a successful `register`
followed immediately by `login` with the same credentials succeeds, and the token
`login` returns has as its subject the id of the account `register` created. -/
theorem register_then_login_token_subject (e p : String) (salt : Nat) (db : Store)
    (h : db.findByEmail (normalize_email e) = none) :
    ∃ (a : Account) (db2 : Store),
      register ⟨e, p⟩ salt db db = (.ok ⟨create_access_token (toString a.id), "bearer"⟩, db2) ∧
      db2.accounts = db.accounts ++ [a] ∧
      (login ⟨e, p⟩ db2).1 = .ok ⟨create_access_token (toString a.id), "bearer"⟩ := by
  refine ⟨⟨db.nextId, normalize_email e, bcrypt.hash salt p⟩,
    ⟨db.accounts ++ [⟨db.nextId, normalize_email e, bcrypt.hash salt p⟩], db.nextId + 1⟩,
    register_ok_eq e p salt db h, rfl, ?_⟩
  have hfind : Store.findByEmail
      ⟨db.accounts ++ [⟨db.nextId, normalize_email e, bcrypt.hash salt p⟩], db.nextId + 1⟩
      (normalize_email e) = some ⟨db.nextId, normalize_email e, bcrypt.hash salt p⟩ :=
    findByEmail_append_new db (normalize_email e) (db.nextId + 1) _ h rfl
  simp only [bcrypt.hash] at hfind
  simp [login, hfind, bcrypt.verify, bcrypt.hash]

/-- C1 witness: a concrete register-then-login run on the empty store. -/
theorem register_then_login_token_subject_witness :
    Store.findByEmail ⟨[], 0⟩ (normalize_email "a@b.com") = none ∧
    (∃ (a : Account) (db2 : Store),
      register ⟨"a@b.com", "pw"⟩ 7 ⟨[], 0⟩ ⟨[], 0⟩ =
        (.ok ⟨create_access_token (toString a.id), "bearer"⟩, db2) ∧
      db2.accounts = ([] : List Account) ++ [a] ∧
      (login ⟨"a@b.com", "pw"⟩ db2).1 = .ok ⟨create_access_token (toString a.id), "bearer"⟩) :=
  ⟨by decide, register_then_login_token_subject "a@b.com" "pw" 7 ⟨[], 0⟩ (by decide)⟩

/-! ### Claim C2: login errors do not reveal whether the email is registered -/

/-- C2.  A login with an unregistered email and a login with a registered email
but failing password verification produce the very same error value:
kind `InvalidCredentials`, detail "Invalid credentials", status 401. -/
theorem login_invalid_credentials_indistinguishable
    (db : Store) (e1 p1 e2 p2 : String) (a : Account)
    (h1 : db.findByEmail (normalize_email e1) = none)
    (h2 : db.findByEmail (normalize_email e2) = some a)
    (h3 : bcrypt.verify p2 a.password_hash = false) :
    (login ⟨e1, p1⟩ db).1 = .error ⟨401, "Invalid credentials"⟩ ∧
    (login ⟨e2, p2⟩ db).1 = (login ⟨e1, p1⟩ db).1 := by
  constructor
  · simp [login, h1]
  · simp [login, h1, h2, h3]

/-- C2 witness: one store, one unknown email, one wrong password. -/
theorem login_invalid_credentials_indistinguishable_witness :
    Store.findByEmail ⟨[⟨0, "b@c.com", bcrypt.hash 3 "pw"⟩], 1⟩ (normalize_email "x@y.com")
        = none ∧
    Store.findByEmail ⟨[⟨0, "b@c.com", bcrypt.hash 3 "pw"⟩], 1⟩ (normalize_email "b@c.com")
        = some ⟨0, "b@c.com", bcrypt.hash 3 "pw"⟩ ∧
    bcrypt.verify "wrong" (bcrypt.hash 3 "pw") = false ∧
    ((login ⟨"x@y.com", "anything"⟩ ⟨[⟨0, "b@c.com", bcrypt.hash 3 "pw"⟩], 1⟩).1 =
        .error ⟨401, "Invalid credentials"⟩ ∧
      (login ⟨"b@c.com", "wrong"⟩ ⟨[⟨0, "b@c.com", bcrypt.hash 3 "pw"⟩], 1⟩).1 =
        (login ⟨"x@y.com", "anything"⟩ ⟨[⟨0, "b@c.com", bcrypt.hash 3 "pw"⟩], 1⟩).1) :=
  ⟨by decide, by decide, by decide,
    login_invalid_credentials_indistinguishable
      ⟨[⟨0, "b@c.com", bcrypt.hash 3 "pw"⟩], 1⟩ "x@y.com" "anything" "b@c.com" "wrong"
      ⟨0, "b@c.com", bcrypt.hash 3 "pw"⟩ (by decide) (by decide) (by decide)⟩

/-! ### Claim C9: login never mutates the store -/

/-- C9.  `login` mutates no account or password state: on every input and every
initial store, the store coming out of the flow is exactly the store going in,
on the success path and on both error paths. -/
theorem login_leaves_store_unchanged (payload : UserCreate) (db : Store) :
    (login payload db).2 = db := by
  unfold login
  rcases hfind : db.findByEmail (normalize_email payload.email) with _ | user
  · simp [hfind]
  · by_cases h : bcrypt.verify payload.password user.password_hash <;> simp [hfind, h]

/-! ### Claim C6: verify is total and malformed hashes just fail authorization -/

/-- C6.  `bcrypt.verify` is a total boolean function (it cannot raise); on any
malformed stored hash it returns `false`, so a login that reaches password
verification against a malformed stored hash reports `InvalidCredentials`
(401) rather than an infrastructure fault. -/
theorem verify_malformed_returns_false :
    (∀ (p raw : String), bcrypt.verify p (.malformed raw) = false) ∧
    (∀ (e p raw : String) (db : Store) (a : Account),
      db.findByEmail (normalize_email e) = some a →
      a.password_hash = .malformed raw →
      (login ⟨e, p⟩ db).1 = .error ⟨401, "Invalid credentials"⟩) := by
  constructor
  · intro p raw
    rfl
  · intro e p raw db a hfind hmal
    simp [login, hfind, bcrypt.verify, hmal]

/-- C6 witness: a store whose single row has a malformed stored hash. -/
theorem verify_malformed_returns_false_witness :
    bcrypt.verify "pw" (.malformed "garbage") = false ∧
    Store.findByEmail ⟨[⟨0, "b@c.com", .malformed "garbage"⟩], 1⟩ (normalize_email "b@c.com")
        = some ⟨0, "b@c.com", .malformed "garbage"⟩ ∧
    (login ⟨"b@c.com", "pw"⟩ ⟨[⟨0, "b@c.com", .malformed "garbage"⟩], 1⟩).1 =
      .error ⟨401, "Invalid credentials"⟩ :=
  ⟨verify_malformed_returns_false.1 "pw" "garbage", by decide,
    verify_malformed_returns_false.2 "b@c.com" "pw" "garbage"
      ⟨[⟨0, "b@c.com", .malformed "garbage"⟩], 1⟩
      ⟨0, "b@c.com", .malformed "garbage"⟩ (by decide) rfl⟩

/-! ### Claim C10: no password policy at the core interface -/

/-- C10.  For any email whose normalized form is free, `register` succeeds for
any password string whatsoever — the empty string included — hashing it and
storing the hash like any other password. -/
theorem register_accepts_any_password (e p : String) (salt : Nat) (db : Store)
    (h : db.findByEmail (normalize_email e) = none) :
    ∃ (a : Account) (db2 : Store),
      register ⟨e, p⟩ salt db db = (.ok ⟨create_access_token (toString a.id), "bearer"⟩, db2) ∧
      db2.accounts = db.accounts ++ [a] ∧
      a.password_hash = bcrypt.hash salt p := by
  exact ⟨⟨db.nextId, normalize_email e, bcrypt.hash salt p⟩,
    ⟨db.accounts ++ [⟨db.nextId, normalize_email e, bcrypt.hash salt p⟩], db.nextId + 1⟩,
    register_ok_eq e p salt db h, rfl, rfl⟩

/-- C10 witness: registering with the empty password on the empty store. -/
theorem register_accepts_any_password_witness :
    Store.findByEmail ⟨[], 0⟩ (normalize_email "a@b.com") = none ∧
    (∃ (a : Account) (db2 : Store),
      register ⟨"a@b.com", ""⟩ 5 ⟨[], 0⟩ ⟨[], 0⟩ =
        (.ok ⟨create_access_token (toString a.id), "bearer"⟩, db2) ∧
      db2.accounts = ([] : List Account) ++ [a] ∧
      a.password_hash = bcrypt.hash 5 "") :=
  ⟨by decide, register_accepts_any_password "a@b.com" "" 5 ⟨[], 0⟩ (by decide)⟩

/-! ### Claim C3: both duplicate-detection paths raise the identical error -/

/-- C3.  Whether the duplicate email is caught by the optimistic pre-check or by
the uniqueness violation the store reports at commit time, `register` fails with
the very same error value: conflict status 409, detail "Email already registered". -/
theorem register_duplicate_same_error_shape :
    (∀ (payload : UserCreate) (salt : Nat) (db dbC : Store) (a : Account),
      db.findByEmail (normalize_email payload.email) = some a →
      (register payload salt db dbC).1 = .error ⟨409, "Email already registered"⟩) ∧
    (∀ (payload : UserCreate) (salt : Nat) (db dbC : Store) (a : Account),
      db.findByEmail (normalize_email payload.email) = none →
      dbC.findByEmail (normalize_email payload.email) = some a →
      (register payload salt db dbC).1 = .error ⟨409, "Email already registered"⟩) := by
  constructor
  · intro payload salt db dbC a h
    simp [register, h]
  · intro payload salt db dbC a h hc
    simp [register, Store.create, h, hc]

/-- C3 witness: the pre-check duplicate and the race-loser duplicate on
concrete stores, both yielding the identical 409 error. -/
theorem register_duplicate_same_error_shape_witness :
    Store.findByEmail ⟨[⟨0, "a@b.com", bcrypt.hash 0 "pw"⟩], 1⟩ (normalize_email "a@b.com")
        = some ⟨0, "a@b.com", bcrypt.hash 0 "pw"⟩ ∧
    Store.findByEmail ⟨[], 0⟩ (normalize_email "a@b.com") = none ∧
    (register ⟨"a@b.com", "x"⟩ 1 ⟨[⟨0, "a@b.com", bcrypt.hash 0 "pw"⟩], 1⟩
        ⟨[⟨0, "a@b.com", bcrypt.hash 0 "pw"⟩], 1⟩).1 =
      .error ⟨409, "Email already registered"⟩ ∧
    (register ⟨"a@b.com", "x"⟩ 1 ⟨[], 0⟩ ⟨[⟨0, "a@b.com", bcrypt.hash 0 "pw"⟩], 1⟩).1 =
      .error ⟨409, "Email already registered"⟩ :=
  ⟨by decide, by decide,
    register_duplicate_same_error_shape.1 ⟨"a@b.com", "x"⟩ 1
      ⟨[⟨0, "a@b.com", bcrypt.hash 0 "pw"⟩], 1⟩ ⟨[⟨0, "a@b.com", bcrypt.hash 0 "pw"⟩], 1⟩
      ⟨0, "a@b.com", bcrypt.hash 0 "pw"⟩ (by decide),
    register_duplicate_same_error_shape.2 ⟨"a@b.com", "x"⟩ 1
      ⟨[], 0⟩ ⟨[⟨0, "a@b.com", bcrypt.hash 0 "pw"⟩], 1⟩
      ⟨0, "a@b.com", bcrypt.hash 0 "pw"⟩ (by decide) (by decide)⟩

/-! ### Claim C4: exactly one row on success, zero on every failure path -/

/-- C4.  `register` appends exactly one account row to the commit-time store when
it returns success, and on every failure path it returns a store it has not
changed: the pre-check failure returns the pre-check store untouched and the
uniqueness-violation failure returns the commit-time store untouched (rollback). -/
theorem register_store_effects (payload : UserCreate) (salt : Nat) (db dbC : Store) :
    (∀ (t : TokenOut) (db2 : Store), register payload salt db dbC = (.ok t, db2) →
      ∃ a : Account, db2.accounts = dbC.accounts ++ [a]) ∧
    (∀ (err : HTTPError) (db2 : Store), register payload salt db dbC = (.error err, db2) →
      db2 = db ∨ db2 = dbC) := by
  by_cases hpre : (db.findByEmail (normalize_email payload.email)).isSome
  · refine ⟨?_, ?_⟩
    · intro t db2 h
      simp [register, hpre] at h
    · intro err db2 h
      simp [register, hpre] at h
      exact Or.inl h.2.symm
  · by_cases hcm : (dbC.findByEmail (normalize_email payload.email)).isSome
    · refine ⟨?_, ?_⟩
      · intro t db2 h
        simp [register, Store.create, hpre, hcm] at h
      · intro err db2 h
        simp [register, Store.create, hpre, hcm] at h
        exact Or.inr h.2.symm
    · refine ⟨?_, ?_⟩
      · intro t db2 h
        simp [register, Store.create, hpre, hcm] at h
        exact ⟨⟨dbC.nextId, normalize_email payload.email, bcrypt.hash salt payload.password⟩,
          by rw [← h.2]⟩
      · intro err db2 h
        simp [register, Store.create, hpre, hcm] at h

/-! ### Claim C5: normalization is applied before every lookup and insert -/

/-- C5.  Both flows consult the store only through the normalized email, so two
raw inputs with the same normalized form are treated identically; in particular,
registering "a@b.com" and then "A@B.com " (trailing blank, different case) makes
the second `register` fail with the 409 duplicate error. -/
theorem flows_use_normalized_email :
    (∀ (e1 e2 p : String) (salt : Nat) (db dbC : Store),
      normalize_email e1 = normalize_email e2 →
      register ⟨e1, p⟩ salt db dbC = register ⟨e2, p⟩ salt db dbC ∧
      login ⟨e1, p⟩ db = login ⟨e2, p⟩ db) ∧
    ((register ⟨"A@B.com ", "pw2"⟩ 1 (register ⟨"a@b.com", "pw1"⟩ 0 ⟨[], 0⟩ ⟨[], 0⟩).2
        (register ⟨"a@b.com", "pw1"⟩ 0 ⟨[], 0⟩ ⟨[], 0⟩).2).1 =
      .error ⟨409, "Email already registered"⟩) := by
  constructor
  · intro e1 e2 p salt db dbC h
    constructor
    · simp only [register, h]
    · simp only [login, h]
  · decide

/-- C5 witness: two concretely different spellings of one address drive both
flows to identical results. -/
theorem flows_use_normalized_email_witness :
    normalize_email "X@b.com" = normalize_email " x@b.com" ∧
    (register ⟨"X@b.com", "p"⟩ 0 ⟨[], 0⟩ ⟨[], 0⟩ =
        register ⟨" x@b.com", "p"⟩ 0 ⟨[], 0⟩ ⟨[], 0⟩ ∧
      login ⟨"X@b.com", "p"⟩ ⟨[], 0⟩ = login ⟨" x@b.com", "p"⟩ ⟨[], 0⟩) :=
  ⟨by decide,
    flows_use_normalized_email.1 "X@b.com" " x@b.com" "p" 0 ⟨[], 0⟩ ⟨[], 0⟩ (by decide)⟩

/-- C4 witness: a concrete successful run appends one row; a concrete duplicate
run returns the store untouched. -/
theorem register_store_effects_witness :
    (∃ a : Account,
      (⟨[⟨0, "a@b.com", bcrypt.hash 2 "pw"⟩], 1⟩ : Store).accounts =
        (⟨[], 0⟩ : Store).accounts ++ [a]) ∧
    ((⟨[⟨0, "a@b.com", bcrypt.hash 0 "pw"⟩], 1⟩ : Store) =
        ⟨[⟨0, "a@b.com", bcrypt.hash 0 "pw"⟩], 1⟩ ∨
      (⟨[⟨0, "a@b.com", bcrypt.hash 0 "pw"⟩], 1⟩ : Store) =
        ⟨[⟨0, "a@b.com", bcrypt.hash 0 "pw"⟩], 1⟩) :=
  ⟨(register_store_effects ⟨"a@b.com", "pw"⟩ 2 ⟨[], 0⟩ ⟨[], 0⟩).1
      ⟨create_access_token "0", "bearer"⟩ ⟨[⟨0, "a@b.com", bcrypt.hash 2 "pw"⟩], 1⟩ (by decide),
    (register_store_effects ⟨"a@b.com", "z"⟩ 1 ⟨[⟨0, "a@b.com", bcrypt.hash 0 "pw"⟩], 1⟩
        ⟨[⟨0, "a@b.com", bcrypt.hash 0 "pw"⟩], 1⟩).2 ⟨409, "Email already registered"⟩
      ⟨[⟨0, "a@b.com", bcrypt.hash 0 "pw"⟩], 1⟩ (by decide)⟩

/-- C7 witness: the contract's consequences evaluated on the spec's example. -/
theorem normalize_email_contract_witness :
    isPySpace 'e' = false ∧ isPySpace 'm' = false ∧ ¬(65 ≤ 'e'.toNat ∧ 'e'.toNat ≤ 90) :=
  ⟨normalize_email_contract.2.1 " E@X.com " 'e' (by decide),
    normalize_email_contract.2.2.1 " E@X.com " 'm' (by decide),
    normalize_email_contract.2.2.2 " E@X.com " 'e' (by decide)⟩
